import Mathlib

/-!
# Verification of the window lifecycle engine

A shallow embedding of `manage_window` and `update_window_state` from
`src/packages/wm/src/windows/commands/`, together with the container-tree
data model they operate on.  Containers are identified by numeric ids; the
tree is an association list from id to node.  Tree-mutation primitives
(`attach_container`, `move_container_within_tree`, `replace_container`,
`set_focused_descendant`) and the capability getters are not part of the
two source files, so they are modelled from the specification, as marked
in their doc comments.
-/

namespace GlazeWm

/-- A rectangle, as reported by the native window or computed for a
workspace (x/y position plus width/height). -/
structure Rect where
  x : Int
  y : Int
  width : Int
  height : Int
deriving DecidableEq

/-- Modelled from the spec: "translate-to-center" places the rectangle,
keeping its width and height, at the center of the target rectangle. -/
def Rect.translate_to_center (r : Rect) (target : Rect) : Rect :=
  { r with
    x := target.x + (target.width - r.width) / 2
    y := target.y + (target.height - r.height) / 2 }

/-- Per-state default config for floating windows (`centered` is the
floating-default centering preference consulted by `create_window`). -/
structure FloatingStateConfig where
  centered : Bool
  shownOnTop : Bool
deriving DecidableEq

/-- Per-state default config for fullscreen windows. -/
structure FullscreenStateConfig where
  maximized : Bool
  shownOnTop : Bool
deriving DecidableEq

/-- `WindowState`: tagged union {Tiling, Floating(config), Minimized,
Fullscreen(config)}. -/
inductive WindowState where
  | tiling
  | floating (config : FloatingStateConfig)
  | fullscreen (config : FullscreenStateConfig)
  | minimized
deriving DecidableEq

/-- Modelled from the spec: "Equality is state-tag equality" — the `==`
on `WindowState` compares only the variant tag, ignoring the per-state
config payload. -/
def WindowState.tagEq : WindowState → WindowState → Bool
  | .tiling, .tiling => true
  | .floating _, .floating _ => true
  | .fullscreen _, .fullscreen _ => true
  | .minimized, .minimized => true
  | _, _ => false

/-- The queried attributes of a native window: placement rectangle plus
the minimized/fullscreen/resizable flags. -/
structure NativeWindow where
  handle : Nat
  placement : Rect
  is_minimized : Bool
  is_fullscreen : Bool
  is_resizable : Bool
deriving DecidableEq

/-- Gap sizing from the user configuration. -/
structure GapsConfig where
  innerGap : Nat
deriving DecidableEq

/-- The `window_state_defaults` section of the user configuration. -/
structure WindowStateDefaults where
  floating : FloatingStateConfig
  fullscreen : FullscreenStateConfig
deriving DecidableEq

/-- Read-only user configuration snapshot. -/
structure UserConfig where
  gaps : GapsConfig
  windowStateDefaults : WindowStateDefaults
deriving DecidableEq

/-- Containers are identified by numeric ids (arena-style, per the spec's
design note: back-references are ids into one owning tree store). -/
abbrev ContainerId := Nat

/-- The variant-specific payload of a tree node.  A `tilingWindow`
carries its inner-gap parameter and floating placement; a
`nonTilingWindow` carries its `WindowState`, optional remembered
insertion target and floating placement. -/
inductive ContainerKind where
  | monitor
  | workspace
  | splitContainer
  | tilingWindow (gap : Nat) (floatingPlacement : Rect)
  | nonTilingWindow (state : WindowState)
      (insertionTarget : Option (ContainerId × Nat))
      (floatingPlacement : Rect)
deriving DecidableEq

def ContainerKind.isWorkspace : ContainerKind → Bool
  | .workspace => true
  | _ => false

def ContainerKind.isTilingWindow : ContainerKind → Bool
  | .tilingWindow _ _ => true
  | _ => false

/-- A tree node: its variant payload, ordered child sequence, and the
pending-DPI-adjustment marker. -/
structure Node where
  kind : ContainerKind
  children : List ContainerId
  hasPendingDpiAdjustment : Bool
deriving DecidableEq

/-- The container tree: an association list from container id to node. -/
structure Tree where
  nodes : List (ContainerId × Node)
deriving DecidableEq

def Tree.lookup (t : Tree) (c : ContainerId) : Option Node :=
  (t.nodes.find? (fun p => p.1 == c)).map Prod.snd

/-- Insert-or-update a node in the store. -/
def Tree.setNode (t : Tree) (c : ContainerId) (n : Node) : Tree :=
  if (t.lookup c).isSome then
    ⟨t.nodes.map (fun p => if p.1 == c then (p.1, n) else p)⟩
  else
    ⟨t.nodes ++ [(c, n)]⟩

/-- Modelled from the spec: a node's parent is the node whose ordered
child sequence contains it ("a child has exactly one owning parent"). -/
def Tree.parentOf (t : Tree) (c : ContainerId) : Option ContainerId :=
  (t.nodes.find? (fun p => p.2.children.contains c)).map Prod.fst

/-- Modelled from the spec: a node's `index` equals its position in its
parent's ordered child sequence. -/
def Tree.index (t : Tree) (c : ContainerId) : Nat :=
  match t.parentOf c with
  | none => 0
  | some p =>
    match t.lookup p with
    | none => 0
    | some n => n.children.findIdx (fun x => x == c)

def Tree.childCount (t : Tree) (c : ContainerId) : Nat :=
  match t.lookup c with
  | none => 0
  | some n => n.children.length

def Tree.childrenOf (t : Tree) (c : ContainerId) : List ContainerId :=
  match t.lookup c with
  | none => []
  | some n => n.children

def Tree.isTilingWindow (t : Tree) (c : ContainerId) : Bool :=
  match t.lookup c with
  | none => false
  | some n => n.kind.isTilingWindow

/-- `window.state()`: Tiling for a `TilingWindow`, the carried state for
a `NonTilingWindow`, and none for a non-window container. -/
def Tree.windowState (t : Tree) (c : ContainerId) : Option WindowState :=
  match t.lookup c with
  | some n =>
    match n.kind with
    | .tilingWindow _ _ => some .tiling
    | .nonTilingWindow s _ _ => some s
    | _ => none
  | none => none

/-- The stored floating placement of a window container. -/
def Tree.floatingPlacement (t : Tree) (c : ContainerId) : Option Rect :=
  match t.lookup c with
  | some n =>
    match n.kind with
    | .tilingWindow _ fp => some fp
    | .nonTilingWindow _ _ fp => some fp
    | _ => none
  | none => none

/-- The remembered insertion target of a non-tiling window, if any. -/
def Tree.insertion_target (t : Tree) (c : ContainerId) :
    Option (ContainerId × Nat) :=
  match t.lookup c with
  | some n =>
    match n.kind with
    | .nonTilingWindow _ target _ => target
    | _ => none
  | none => none

/-- Fuel-bounded walk up the parent chain collecting strict ancestors. -/
def Tree.ancestorsAux (t : Tree) : Nat → ContainerId → List ContainerId
  | 0, _ => []
  | fuel + 1, c =>
    match t.parentOf c with
    | none => []
    | some p => p :: t.ancestorsAux fuel p

/-- The strict ancestors of a container, nearest first. -/
def Tree.ancestors (t : Tree) (c : ContainerId) : List ContainerId :=
  t.ancestorsAux t.nodes.length c

/-- `c` is a strict descendant of `a`. -/
def Tree.isDescendantOf (t : Tree) (c a : ContainerId) : Bool :=
  (t.ancestors c).contains a

/-- Modelled from the spec: `parent_workspace` resolves a container's
owning workspace — the closest self-or-ancestor container that is a
workspace ("Look up the target parent's owning workspace"). -/
def Tree.parent_workspace (t : Tree) (c : ContainerId) :
    Option ContainerId :=
  (c :: t.ancestors c).find? (fun a =>
    match t.lookup a with
    | some n => n.kind.isWorkspace
    | none => false)

/-- Insert an element at a position in a list, appending when the
position is past the end. -/
def insertAt : List ContainerId → Nat → ContainerId → List ContainerId
  | l, 0, c => c :: l
  | [], _ + 1, c => [c]
  | x :: xs, n + 1, c => x :: insertAt xs n c

/-- Remove a container from every child sequence in the tree. -/
def Tree.removeFromParent (t : Tree) (c : ContainerId) : Tree :=
  ⟨t.nodes.map (fun p =>
    (p.1, { p.2 with children := p.2.children.filter (fun x => x != c) }))⟩

/-- Modelled from the spec: `move_container_within_tree` relinks the
container from its current parent to the target parent at the target
index, shifting subsequent siblings. -/
def Tree.move_container_within_tree (t : Tree) (c target : ContainerId)
    (i : Nat) : Tree :=
  let t1 := t.removeFromParent c
  match t1.lookup target with
  | none => t1
  | some n => t1.setNode target { n with children := insertAt n.children i c }

/-- Modelled from the spec: `replace_container` swaps the container at
`(parent, i)` for the given one at the same tree position — "a pure
type-level swap, not a move".  Variant conversions preserve identity, so
the new container carries the same id with a new variant payload. -/
def Tree.replace_container (t : Tree) (newId : ContainerId)
    (newKind : ContainerKind) (parent : ContainerId) (i : Nat) : Tree :=
  match t.lookup parent with
  | none => t
  | some pn =>
    let t1 := t.setNode parent { pn with children := pn.children.set i newId }
    match t1.lookup newId with
    | some existing => t1.setNode newId { existing with kind := newKind }
    | none =>
      t1.setNode newId
        { kind := newKind, children := [], hasPendingDpiAdjustment := false }

/-- Modelled from the spec: `attach_container` attaches the (new) node as
a child of the target parent at the target index, shifting subsequent
siblings. -/
def Tree.attach_container (t : Tree) (newId : ContainerId) (n : Node)
    (parent : ContainerId) (i : Nat) : Tree :=
  let t1 := t.setNode newId n
  match t1.lookup parent with
  | none => t1
  | some pn => t1.setNode parent { pn with children := insertAt pn.children i newId }

def Tree.setPendingDpiAdjustment (t : Tree) (c : ContainerId) (b : Bool) :
    Tree :=
  match t.lookup c with
  | none => t
  | some n => t.setNode c { n with hasPendingDpiAdjustment := b }

/-- Events emitted by the lifecycle engine. -/
inductive WmEvent where
  | windowManaged (managedWindow : ContainerId)
deriving DecidableEq

/-- WM process state: the container tree, the focus-order history (most
recent first), the membership-deduplicated pending-redraw set, the
pending-OS-focus-sync flag, the last unmanaged/minimized timestamp, and
the outbound event queue. -/
structure WmState where
  tree : Tree
  focusOrder : List ContainerId
  pendingRedraw : List ContainerId
  has_pending_focus_sync : Bool
  unmanaged_or_minimized_timestamp : Option Nat
  events : List WmEvent
deriving DecidableEq

/-- Membership-deduplicated insertion into the pending-redraw set. -/
def addToRedrawList (l : List ContainerId) (c : ContainerId) :
    List ContainerId :=
  if l.contains c then l else l ++ [c]

/-- Modelled from the spec: the pending-redraw set is
membership-deduplicated, so adding an already-present container is a
no-op. -/
def WmState.add_container_to_redraw (st : WmState) (c : ContainerId) :
    WmState :=
  { st with pendingRedraw := addToRedrawList st.pendingRedraw c }

/-- Modelled from the spec: `set_focused_descendant` moves the container
to the front of the focus-order history. -/
def WmState.set_focused_descendant (st : WmState) (c : ContainerId) :
    WmState :=
  { st with focusOrder := c :: st.focusOrder.filter (fun x => x != c) }

/-- Modelled from the spec: the currently focused container is the most
recent entry of the focus-order history. -/
def WmState.focused_container (st : WmState) : Option ContainerId :=
  st.focusOrder.head?

/-- Modelled from the spec: `descendant_focus_order` walks the
focus-order history restricted to the container's descendants, most
recent first. -/
def WmState.descendant_focus_order (st : WmState) (c : ContainerId) :
    List ContainerId :=
  st.focusOrder.filter (fun x => st.tree.isDescendantOf x c)

/-- Modelled from the spec: the "focus target after removal" policy is an
external-facing lookup the spec leaves unspecified; modelled as the most
recent focus-history entry other than the removed container. -/
def WmState.focus_target_after_removal (st : WmState) (c : ContainerId) :
    Option ContainerId :=
  (st.focusOrder.filter (fun x => x != c)).head?

def WmState.emit_event (st : WmState) (e : WmEvent) : WmState :=
  { st with events := st.events ++ [e] }

/-- The precondition-failure conditions of the two procedures, mirroring
the `.context(...)` messages in the source. -/
inductive WmError where
  | noFocusedContainer
  | noInsertionTarget
  | noTargetWorkspace
  | noNearestMonitor
  | noNearestWorkspace
  | noWorkspace
  | noParent
  | noRect
deriving DecidableEq

/-! ## `update_window_state` (src/packages/wm/src/windows/commands/update_window_state.rs)

Fallible procedures return `WmState × Except WmError α`, so the state at
the moment of an error is observable.  `Instant::now()` is passed in as
the parameter `now`. -/

/-- `set_tiling` from update_window_state.rs:33-79: convert a
`NonTilingWindow` back to tiling, reinserting it at its remembered
insertion target, else beside the first tiling window of
`window.descendant_focus_order()`, else at `(workspace, 0)`. -/
def set_tiling (window : ContainerId) (state : WmState)
    (config : UserConfig) : WmState × Except WmError Unit :=
  match state.tree.lookup window with
  | some node =>
    match node.kind with
    | .nonTilingWindow _ insTarget placement =>
      match state.tree.parent_workspace window with
      | none => (state, .error .noWorkspace)
      | some workspace =>
        let fallback : Option (ContainerId × Nat) :=
          match ((state.descendant_focus_order window).filter
              (fun c => state.tree.isTilingWindow c)).head? with
          | none => none
          | some focusedWindow =>
            match state.tree.parentOf focusedWindow with
            | none => none
            | some p => some (p, state.tree.index focusedWindow + 1)
        let (targetParent, targetIndex) :=
          (insTarget.orElse (fun _ => fallback)).getD (workspace, 0)
        match state.tree.parentOf window with
        | none => (state, .error .noParent)
        | some parent =>
          let idx := state.tree.index window
          let t1 := state.tree.replace_container window
            (.tilingWindow config.gaps.innerGap placement) parent idx
          let t2 :=
            t1.move_container_within_tree window targetParent targetIndex
          (({ state with tree := t2 }).add_container_to_redraw window,
            .ok ())
    | _ => (state, .ok ())
  | none => (state, .ok ())

/-- `set_non_tiling` from update_window_state.rs:81-128: an already
non-tiling window has its state tag mutated in place; a tiling window is
moved to the end of its workspace's child sequence, converted, and (for
Minimized) the timestamp/focus-sync bookkeeping is performed. -/
def set_non_tiling (window : ContainerId) (windowState : WindowState)
    (now : Nat) (state : WmState) : WmState × Except WmError Unit :=
  match state.tree.lookup window with
  | some node =>
    match node.kind with
    | .nonTilingWindow _ insTarget placement =>
      let t1 := state.tree.setNode window
        { node with kind := .nonTilingWindow windowState insTarget placement }
      (({ state with tree := t1 }).add_container_to_redraw window, .ok ())
    | .tilingWindow _ placement =>
      match state.tree.parent_workspace window with
      | none => (state, .error .noWorkspace)
      | some workspace =>
        let t1 := state.tree.move_container_within_tree window workspace
          (state.tree.childCount workspace - 1)
        match t1.parentOf window with
        | none => ({ state with tree := t1 }, .error .noParent)
        | some parent =>
          let idx := t1.index window
          let t2 := t1.replace_container window
            (.nonTilingWindow windowState none placement) parent idx
          let st1 := { state with tree := t2 }
          let st2 :=
            if windowState.tagEq .minimized then
              let stA := { st1 with
                unmanaged_or_minimized_timestamp := some now,
                has_pending_focus_sync := true }
              match stA.focus_target_after_removal window with
              | some focusTarget => stA.set_focused_descendant focusTarget
              | none => stA
            else st1
          (st2.add_container_to_redraw parent, .ok ())
    | _ => (state, .ok ())
  | none => (state, .ok ())

/-- `update_window_state` from update_window_state.rs:17-31: no-op when
the window already has the requested state (per the spec, `WindowState`
equality is tag equality), else dispatch on the requested state. -/
def update_window_state (window : ContainerId) (windowState : WindowState)
    (now : Nat) (state : WmState) (config : UserConfig) :
    WmState × Except WmError Unit :=
  match state.tree.windowState window with
  | none => (state, .ok ())
  | some current =>
    if current.tagEq windowState then (state, .ok ())
    else
      match windowState with
      | .tiling => set_tiling window state config
      | _ => set_non_tiling window windowState now state

/-! ## `manage_window` (src/packages/wm/src/windows/commands/manage_window.rs) -/

/-- The external monitor service (spec section 6): the monitor nearest
the native window, each monitor's displayed workspace, the
DPI-difference predicate, and workspace rectangles (`to_rect`). -/
structure MonitorEnv where
  nearest_monitor : Option ContainerId
  displayed_workspace : ContainerId → Option ContainerId
  has_dpi_difference : Bool
  to_rect : ContainerId → Option Rect

/-- `window_state_to_create` from manage_window.rs:147-169: the initial
state for a window based on its native state. -/
def window_state_to_create (native : NativeWindow) (config : UserConfig) :
    WindowState :=
  if native.is_minimized then
    .minimized
  else if native.is_fullscreen then
    .fullscreen config.windowStateDefaults.fullscreen
  else if !native.is_resizable then
    .floating config.windowStateDefaults.floating
  else
    .tiling

/-- `insertion_target` from manage_window.rs:171-184: the focused-based
insertion point. -/
def insertion_target (state : WmState) :
    Except WmError (ContainerId × Nat) :=
  match state.focused_container with
  | none => .error .noFocusedContainer
  | some focusedContainer =>
    match state.tree.lookup focusedContainer with
    | some n =>
      if n.kind.isWorkspace then .ok (focusedContainer, 0)
      else
        match state.tree.parentOf focusedContainer with
        | none => .error .noInsertionTarget
        | some p => .ok (p, state.tree.index focusedContainer + 1)
    | none =>
      match state.tree.parentOf focusedContainer with
      | none => .error .noInsertionTarget
      | some p => .ok (p, state.tree.index focusedContainer + 1)

/-- manage_window.rs:75-78: the insertion point is the explicit target
parent at index 0 when one is given, else the focused-based target. -/
def cwTarget (targetParent : Option ContainerId) (state : WmState) :
    Except WmError (ContainerId × Nat) :=
  match targetParent with
  | some parent => .ok (parent, 0)
  | none => insertion_target state

/-- manage_window.rs:95-104: the floating placement is the native
rectangle when the nearest monitor's displayed workspace is the target
workspace and centering is disabled, else the native rectangle
translated to the center of the target workspace's rectangle. -/
def cwPlacement (native : NativeWindow) (config : UserConfig)
    (env : MonitorEnv) (target_workspace nearest_workspace : ContainerId) :
    Except WmError Rect :=
  if nearest_workspace == target_workspace &&
      !config.windowStateDefaults.floating.centered then
    .ok native.placement
  else
    match env.to_rect target_workspace with
    | none => .error .noRect
    | some r => .ok (native.placement.translate_to_center r)

/-- manage_window.rs:108-125: a Tiling initial state yields a
`TilingWindow` with the configured inner gap, any other state a
`NonTilingWindow` carrying that state, with no insertion target yet. -/
def createdKind (native : NativeWindow) (config : UserConfig)
    (floating_placement : Rect) : ContainerKind :=
  match window_state_to_create native config with
  | .tiling => .tilingWindow config.gaps.innerGap floating_placement
  | s => .nonTilingWindow s none floating_placement

/-- manage_window.rs:127-139: attach the new container at the target
position, then mark it for DPI adjustment if the nearest monitor reports
a DPI difference. -/
def attachedTree (t : Tree) (newId : ContainerId) (k : ContainerKind)
    (target_parent : ContainerId) (target_index : Nat) (dpi : Bool) :
    Tree :=
  let t1 := t.attach_container newId ⟨k, [], false⟩ target_parent
    target_index
  if dpi then t1.setPendingDpiAdjustment newId true else t1

/-- `create_window` from manage_window.rs:67-142.  The fresh container id
is supplied as `newId` (id allocation is outside the two source files). -/
def create_window (native : NativeWindow)
    (targetParent : Option ContainerId) (newId : ContainerId)
    (state : WmState) (config : UserConfig) (env : MonitorEnv) :
    WmState × Except WmError ContainerId :=
  match cwTarget targetParent state with
  | .error e => (state, .error e)
  | .ok (target_parent, target_index) =>
    match state.tree.parent_workspace target_parent with
    | none => (state, .error .noTargetWorkspace)
    | some target_workspace =>
      match env.nearest_monitor with
      | none => (state, .error .noNearestMonitor)
      | some nearestMonitor =>
        match env.displayed_workspace nearestMonitor with
        | none => (state, .error .noNearestWorkspace)
        | some nearest_workspace =>
          match cwPlacement native config env target_workspace
              nearest_workspace with
          | .error e => (state, .error e)
          | .ok floating_placement =>
            ({ state with
                tree := attachedTree state.tree newId
                  (createdKind native config floating_placement)
                  target_parent target_index env.has_dpi_difference },
              .ok newId)

/-- `manage_window` from manage_window.rs:19-65: create and attach the
window, focus it, emit the managed event, request an OS focus sync, and
schedule the parent (tiling) or the window itself (non-tiling) for
redraw. -/
def manage_window (native : NativeWindow)
    (targetParent : Option ContainerId) (newId : ContainerId)
    (state : WmState) (config : UserConfig) (env : MonitorEnv) :
    WmState × Except WmError Unit :=
  match create_window native targetParent newId state config env with
  | (st, .error e) => (st, .error e)
  | (st, .ok window) =>
    let st1 := st.set_focused_descendant window
    let st2 := st1.emit_event (.windowManaged window)
    let st3 := { st2 with has_pending_focus_sync := true }
    let isTiling :=
      match st3.tree.windowState window with
      | some s => s.tagEq .tiling
      | none => false
    let redrawTargetRes : Except WmError ContainerId :=
      if isTiling then
        match st3.tree.parentOf window with
        | none => .error .noParent
        | some p => .ok p
      else .ok window
    match redrawTargetRes with
    | .error e => (st3, .error e)
    | .ok redrawTarget => (st3.add_container_to_redraw redrawTarget, .ok ())

/-! ## Concrete fixtures used by witnesses and counterexamples -/

def rectA : Rect := ⟨40, 40, 20, 20⟩

def fcfgA : FloatingStateConfig := ⟨false, false⟩

def uCfgA : UserConfig := ⟨⟨7⟩, ⟨fcfgA, ⟨false, false⟩⟩⟩

/-- A configuration with the floating-default centering preference
enabled. -/
def uCfgCentered : UserConfig := ⟨⟨7⟩, ⟨⟨true, false⟩, ⟨false, false⟩⟩⟩

/-- A resizable, non-minimized, non-fullscreen native window. -/
def nativeA : NativeWindow := ⟨99, rectA, false, false, true⟩

/-- A workspace (id 1) holding one floating window (id 2). -/
def stFloating : WmState :=
  { tree := ⟨[(1, ⟨.workspace, [2], false⟩),
      (2, ⟨.nonTilingWindow (.floating fcfgA) none rectA, [], false⟩)]⟩,
    focusOrder := [2], pendingRedraw := [],
    has_pending_focus_sync := false,
    unmanaged_or_minimized_timestamp := none, events := [] }

/-- A workspace (id 1) holding one tiling window (id 2). -/
def stTiling : WmState :=
  { tree := ⟨[(1, ⟨.workspace, [2], false⟩),
      (2, ⟨.tilingWindow 7 rectA, [], false⟩)]⟩,
    focusOrder := [2], pendingRedraw := [],
    has_pending_focus_sync := false,
    unmanaged_or_minimized_timestamp := none, events := [] }

/-- A workspace (id 1) whose children are a tiling window (id 2, the most
recently focused container) and a floating window (id 3) with no
remembered insertion target. -/
def stRetile : WmState :=
  { tree := ⟨[(1, ⟨.workspace, [2, 3], false⟩),
      (2, ⟨.tilingWindow 7 rectA, [], false⟩),
      (3, ⟨.nonTilingWindow (.floating fcfgA) none rectA, [], false⟩)]⟩,
    focusOrder := [2, 3], pendingRedraw := [],
    has_pending_focus_sync := false,
    unmanaged_or_minimized_timestamp := none, events := [] }

/-- A workspace (id 1) whose children are a split container (id 4,
holding tiling windows 2 and 6) and a tiling window (id 5). -/
def stSplit : WmState :=
  { tree := ⟨[(1, ⟨.workspace, [4, 5], false⟩),
      (4, ⟨.splitContainer, [2, 6], false⟩),
      (2, ⟨.tilingWindow 7 rectA, [], false⟩),
      (6, ⟨.tilingWindow 7 rectA, [], false⟩),
      (5, ⟨.tilingWindow 7 rectA, [], false⟩)]⟩,
    focusOrder := [2], pendingRedraw := [],
    has_pending_focus_sync := false,
    unmanaged_or_minimized_timestamp := none, events := [] }

/-- A bare focused workspace (id 1) on one monitor. -/
def stWork : WmState :=
  { tree := ⟨[(1, ⟨.workspace, [], false⟩)]⟩,
    focusOrder := [1], pendingRedraw := [],
    has_pending_focus_sync := false,
    unmanaged_or_minimized_timestamp := none, events := [] }

/-- The bare workspace with an empty focus history (no focused
container). -/
def stNoFocus : WmState := { stWork with focusOrder := [] }

/-- A monitor service: monitor 10 is nearest, displays workspace 1,
whose rectangle is 100×100 at the origin; no DPI difference. -/
def envA : MonitorEnv :=
  { nearest_monitor := some 10,
    displayed_workspace := fun m => if m == 10 then some 1 else none,
    has_dpi_difference := false,
    to_rect := fun w => if w == 1 then some ⟨0, 0, 100, 100⟩ else none }

/-! ## Association-list and tree lemmas -/

theorem keyOf_update (c : ContainerId) (n : Node)
    (q : ContainerId × Node) :
    (if q.1 == c then (q.1, n) else q).1 = q.1 := by
  split <;> rfl

theorem Tree.lookup_setNode_self (t : Tree) (c : ContainerId) (n : Node) :
    (t.setNode c n).lookup c = some n := by
  unfold Tree.setNode
  split
  next h =>
    show Tree.lookup _ c = some n
    unfold Tree.lookup at h ⊢
    rw [List.find?_map]
    have hpred : ((fun p : ContainerId × Node => p.1 == c) ∘
        (fun p => if p.1 == c then (p.1, n) else p)) =
        fun p : ContainerId × Node => p.1 == c := by
      funext q
      simp only [Function.comp_apply, keyOf_update]
    rw [hpred]
    cases hf : t.nodes.find? (fun p => p.1 == c) with
    | none => rw [hf] at h; simp at h
    | some pr =>
      have hc : (pr.1 == c) = true := by simpa using List.find?_some hf
      rw [beq_iff_eq] at hc
      simp [hc]
  next h =>
    show Tree.lookup _ c = some n
    unfold Tree.lookup at h ⊢
    rw [List.find?_append]
    cases hf : t.nodes.find? (fun p => p.1 == c) with
    | some pr => rw [hf] at h; simp at h
    | none => simp [List.find?]

theorem Tree.lookup_setNode_ne (t : Tree) (c c' : ContainerId) (n : Node)
    (hne : c' ≠ c) : (t.setNode c n).lookup c' = t.lookup c' := by
  unfold Tree.setNode
  split
  next h =>
    show Tree.lookup _ c' = t.lookup c'
    unfold Tree.lookup
    rw [List.find?_map]
    have hpred : ((fun p : ContainerId × Node => p.1 == c') ∘
        (fun p => if p.1 == c then (p.1, n) else p)) =
        fun p : ContainerId × Node => p.1 == c' := by
      funext q
      simp only [Function.comp_apply, keyOf_update]
    rw [hpred]
    cases hf : t.nodes.find? (fun p => p.1 == c') with
    | none => rfl
    | some pr =>
      have hc : (pr.1 == c') = true := by simpa using List.find?_some hf
      have hprc : (pr.1 == c) = false := by
        rw [beq_iff_eq] at hc
        subst hc
        exact beq_false_of_ne hne
      rw [beq_eq_false_iff_ne] at hprc
      simp [hprc]
  next h =>
    show Tree.lookup _ c' = t.lookup c'
    unfold Tree.lookup
    rw [List.find?_append]
    have htail : List.find? (fun p : ContainerId × Node => p.1 == c')
        [(c, n)] = none := by
      simp [List.find?, beq_false_of_ne (Ne.symm hne)]
    rw [htail]
    cases t.nodes.find? (fun p => p.1 == c') <;> rfl

theorem Tree.lookup_removeFromParent (t : Tree) (c x : ContainerId) :
    (t.removeFromParent c).lookup x = (t.lookup x).map
      (fun n => { n with
        children := n.children.filter (fun y => y != c) }) := by
  unfold Tree.removeFromParent Tree.lookup
  rw [List.find?_map]
  have hpred : ((fun p : ContainerId × Node => p.1 == x) ∘
      (fun p : ContainerId × Node =>
        (p.1, { p.2 with
          children := p.2.children.filter (fun y => y != c) }))) =
      fun p : ContainerId × Node => p.1 == x := rfl
  rw [hpred]
  cases t.nodes.find? (fun p => p.1 == x) <;> rfl

theorem mem_insertAt_self (l : List ContainerId) (i : Nat)
    (c : ContainerId) : c ∈ insertAt l i c := by
  induction l generalizing i with
  | nil => cases i <;> simp [insertAt]
  | cons x xs ih =>
    cases i with
    | zero => simp [insertAt]
    | succ n =>
      simp only [insertAt, List.mem_cons]
      exact Or.inr (ih n)

theorem contains_insertAt_self (l : List ContainerId) (i : Nat)
    (c : ContainerId) : (insertAt l i c).contains c = true := by
  have hmem := mem_insertAt_self l i c
  simpa [List.contains, List.elem_eq_mem] using hmem

theorem contains_filter_ne_self (l : List ContainerId) (c : ContainerId) :
    (l.filter (fun y => y != c)).contains c = false := by
  have hmem : c ∉ l.filter (fun y => y != c) := by
    intro hmem
    rcases List.mem_filter.mp hmem with ⟨-, hy⟩
    simp at hy
  simp [List.contains, List.elem_eq_mem, hmem]

theorem find?_containing_update (l : List (ContainerId × Node))
    (target : ContainerId) (nNew : Node) (c : ContainerId)
    (hall : ∀ p ∈ l, p.2.children.contains c = false)
    (hnew : nNew.children.contains c = true)
    (hkey : (l.find? (fun p => p.1 == target)).isSome = true) :
    ((l.map (fun p => if p.1 == target then (p.1, nNew) else p)).find?
        (fun p => p.2.children.contains c)).map Prod.fst = some target := by
  induction l with
  | nil => simp at hkey
  | cons p l ih =>
    by_cases hp : p.1 = target
    · have hhead : (if p.1 == target then (p.1, nNew) else p) =
          (p.1, nNew) := by
        simp [hp]
      rw [List.map_cons, hhead, @List.find?_cons_of_pos _
        (fun q : ContainerId × Node => q.2.children.contains c)
        (p.1, nNew) _ hnew]
      simp [hp]
    · have hp' : (p.1 == target) = false := beq_false_of_ne hp
      have hhead : (if p.1 == target then (p.1, nNew) else p) = p := by
        simp [hp']
      rw [List.map_cons, hhead, @List.find?_cons_of_neg _
        (fun q : ContainerId × Node => q.2.children.contains c) p _
        (by
          have hc := hall p (List.mem_cons_self p l)
          simpa [List.contains, List.elem_eq_mem] using hc)]
      refine ih (fun q hq => hall q (List.mem_cons_of_mem _ hq)) ?_
      rwa [@List.find?_cons_of_neg _
        (fun q : ContainerId × Node => q.1 == target) p _
        (by simp [hp'])] at hkey

theorem Tree.move_eq (t : Tree) (c target : ContainerId) (i : Nat)
    (n : Node) (hl : t.lookup target = some n) :
    t.move_container_within_tree c target i =
      (t.removeFromParent c).setNode target
        { kind := n.kind,
          children := insertAt (n.children.filter (fun y => y != c)) i c,
          hasPendingDpiAdjustment := n.hasPendingDpiAdjustment } := by
  unfold Tree.move_container_within_tree
  dsimp only
  rw [Tree.lookup_removeFromParent, hl]
  rfl

theorem Tree.parentOf_move (t : Tree) (c target : ContainerId) (i : Nat)
    (h : (t.lookup target).isSome = true) :
    (t.move_container_within_tree c target i).parentOf c =
      some target := by
  cases hl : t.lookup target with
  | none => rw [hl] at h; cases h
  | some n =>
    rw [Tree.move_eq t c target i n hl]
    unfold Tree.setNode
    rw [if_pos (by rw [Tree.lookup_removeFromParent, hl]; rfl)]
    unfold Tree.parentOf
    apply find?_containing_update
    · intro p hp
      unfold Tree.removeFromParent at hp
      rcases List.mem_map.mp hp with ⟨q, _, rfl⟩
      exact contains_filter_ne_self _ _
    · exact contains_insertAt_self _ _ _
    · have hrm : (t.removeFromParent c).lookup target =
          some { kind := n.kind,
                 children := n.children.filter (fun y => y != c),
                 hasPendingDpiAdjustment := n.hasPendingDpiAdjustment } := by
        rw [Tree.lookup_removeFromParent, hl]; rfl
      unfold Tree.lookup at hrm
      cases hf : (t.removeFromParent c).nodes.find?
          (fun p => p.1 == target) with
      | none => rw [hf] at hrm; cases hrm
      | some pr => rfl

theorem Tree.childrenOf_setNode_self (t : Tree) (c : ContainerId)
    (n : Node) : (t.setNode c n).childrenOf c = n.children := by
  unfold Tree.childrenOf
  rw [Tree.lookup_setNode_self]

theorem Tree.childrenOf_setNode_ne (t : Tree) (c c' : ContainerId)
    (n : Node) (hne : c' ≠ c) :
    (t.setNode c n).childrenOf c' = t.childrenOf c' := by
  unfold Tree.childrenOf
  rw [Tree.lookup_setNode_ne _ _ _ _ hne]

theorem Tree.setPendingDpi_eq (t : Tree) (c : ContainerId) (b : Bool)
    (n : Node) (h : t.lookup c = some n) :
    t.setPendingDpiAdjustment c b =
      t.setNode c { n with hasPendingDpiAdjustment := b } := by
  unfold Tree.setPendingDpiAdjustment
  rw [h]

theorem Tree.attach_eq_of_lookup (t : Tree) (newId : ContainerId)
    (n : Node) (P : ContainerId) (i : Nat) (pn : Node)
    (hP : (t.setNode newId n).lookup P = some pn) :
    t.attach_container newId n P i =
      (t.setNode newId n).setNode P
        { kind := pn.kind, children := insertAt pn.children i newId,
          hasPendingDpiAdjustment := pn.hasPendingDpiAdjustment } := by
  unfold Tree.attach_container
  dsimp only
  rw [hP]

theorem Tree.attach_eq_of_lookup_none (t : Tree) (newId : ContainerId)
    (n : Node) (P : ContainerId) (i : Nat)
    (hP : (t.setNode newId n).lookup P = none) :
    t.attach_container newId n P i = t.setNode newId n := by
  unfold Tree.attach_container
  dsimp only
  rw [hP]

theorem attachedTree_false (t : Tree) (newId : ContainerId)
    (k : ContainerKind) (P : ContainerId) (i : Nat) :
    attachedTree t newId k P i false =
      t.attach_container newId ⟨k, [], false⟩ P i := rfl

theorem attachedTree_true (t : Tree) (newId : ContainerId)
    (k : ContainerKind) (P : ContainerId) (i : Nat) :
    attachedTree t newId k P i true =
      (t.attach_container newId ⟨k, [], false⟩ P i).setPendingDpiAdjustment
        newId true := rfl

theorem Tree.lookup_attachedTree_self (t : Tree) (newId : ContainerId)
    (k : ContainerKind) (P : ContainerId) (i : Nat) (dpi : Bool)
    (hne : P ≠ newId) :
    ∃ ch b, (attachedTree t newId k P i dpi).lookup newId =
      some ⟨k, ch, b⟩ := by
  have h1 : (t.setNode newId ⟨k, [], false⟩).lookup newId =
      some ⟨k, [], false⟩ := Tree.lookup_setNode_self ..
  have hatt : ∃ ch,
      (t.attach_container newId ⟨k, [], false⟩ P i).lookup newId =
        some ⟨k, ch, false⟩ := by
    cases hP : (t.setNode newId ⟨k, [], false⟩).lookup P with
    | none =>
      rw [Tree.attach_eq_of_lookup_none _ _ _ _ i hP]
      exact ⟨[], h1⟩
    | some pn =>
      rw [Tree.attach_eq_of_lookup _ _ _ _ i _ hP]
      refine ⟨[], ?_⟩
      rw [Tree.lookup_setNode_ne _ _ _ _ (Ne.symm hne)]
      exact h1
  obtain ⟨ch, hatt⟩ := hatt
  cases dpi with
  | false => exact ⟨ch, false, by rw [attachedTree_false]; exact hatt⟩
  | true =>
    refine ⟨ch, true, ?_⟩
    rw [attachedTree_true, Tree.setPendingDpi_eq _ _ _ _ hatt]
    exact Tree.lookup_setNode_self ..

theorem Tree.childrenOf_attachedTree (t : Tree) (newId : ContainerId)
    (k : ContainerKind) (P : ContainerId) (i : Nat) (dpi : Bool)
    (pn : Node) (hP : t.lookup P = some pn)
    (hfresh : t.lookup newId = none) :
    (attachedTree t newId k P i dpi).childrenOf P =
      insertAt pn.children i newId := by
  have hne : P ≠ newId := fun e => by rw [e, hfresh] at hP; cases hP
  have h1 : (t.setNode newId ⟨k, [], false⟩).lookup P = some pn := by
    rw [Tree.lookup_setNode_ne _ _ _ _ hne]
    exact hP
  have hatt :
      (t.attach_container newId ⟨k, [], false⟩ P i).childrenOf P =
        insertAt pn.children i newId := by
    rw [Tree.attach_eq_of_lookup _ _ _ _ i _ h1]
    exact Tree.childrenOf_setNode_self ..
  cases dpi with
  | false => rw [attachedTree_false]; exact hatt
  | true =>
    rw [attachedTree_true]
    unfold Tree.setPendingDpiAdjustment
    cases hlk : (t.attach_container newId ⟨k, [], false⟩ P i).lookup
        newId with
    | none => exact hatt
    | some nn =>
      rw [Tree.childrenOf_setNode_ne _ _ _ _ hne]
      exact hatt

theorem Tree.windowState_attachedTree (t : Tree) (newId : ContainerId)
    (k : ContainerKind) (P : ContainerId) (i : Nat) (dpi : Bool)
    (hne : P ≠ newId) :
    (attachedTree t newId k P i dpi).windowState newId =
      (match k with
       | .tilingWindow _ _ => some WindowState.tiling
       | .nonTilingWindow s _ _ => some s
       | _ => none) := by
  obtain ⟨ch, b, hl⟩ := Tree.lookup_attachedTree_self t newId k P i dpi hne
  unfold Tree.windowState
  rw [hl]

theorem Tree.floatingPlacement_attachedTree (t : Tree)
    (newId : ContainerId) (k : ContainerKind) (P : ContainerId) (i : Nat)
    (dpi : Bool) (hne : P ≠ newId) :
    (attachedTree t newId k P i dpi).floatingPlacement newId =
      (match k with
       | .tilingWindow _ fp => some fp
       | .nonTilingWindow _ _ fp => some fp
       | _ => none) := by
  obtain ⟨ch, b, hl⟩ := Tree.lookup_attachedTree_self t newId k P i dpi hne
  unfold Tree.floatingPlacement
  rw [hl]

theorem Tree.parent_workspace_lookup (t : Tree) (c ws : ContainerId)
    (h : t.parent_workspace c = some ws) :
    ∃ n, t.lookup ws = some n ∧ n.kind.isWorkspace = true := by
  unfold Tree.parent_workspace at h
  have hp := List.find?_some h
  cases hl : t.lookup ws with
  | none => rw [hl] at hp; cases hp
  | some n => rw [hl] at hp; exact ⟨n, rfl, hp⟩

/-! ## Inversion and dispatch lemmas for the two procedures -/

theorem WindowState.tagEq_tiling_iff (s : WindowState) :
    s.tagEq .tiling = true ↔ s = .tiling := by
  cases s <;> simp [WindowState.tagEq]

theorem WindowState.tiling_tagEq (s : WindowState) :
    WindowState.tiling.tagEq s = s.tagEq .tiling := by
  cases s <;> rfl

theorem create_window_ok_inv {native : NativeWindow}
    {tp : Option ContainerId} {newId : ContainerId} {st : WmState}
    {config : UserConfig} {env : MonitorEnv} {st' : WmState}
    {c' : ContainerId}
    (h : create_window native tp newId st config env = (st', .ok c')) :
    c' = newId ∧
    ∃ P I ws nm nw fp,
      cwTarget tp st = .ok (P, I) ∧
      st.tree.parent_workspace P = some ws ∧
      env.nearest_monitor = some nm ∧
      env.displayed_workspace nm = some nw ∧
      cwPlacement native config env ws nw = .ok fp ∧
      st' = { st with
        tree := attachedTree st.tree newId (createdKind native config fp)
          P I env.has_dpi_difference } := by
  unfold create_window at h
  split at h
  · simp at h
  next target_parent target_index heq =>
    split at h
    · simp at h
    next target_workspace heq2 =>
      split at h
      · simp at h
      next nm heq3 =>
        split at h
        · simp at h
        next nw heq4 =>
          split at h
          · simp at h
          next fp heq5 =>
            have h1 := congrArg Prod.fst h
            have h2 := congrArg Prod.snd h
            dsimp at h1 h2
            rw [Except.ok.injEq] at h2
            exact ⟨h2.symm, target_parent, target_index, target_workspace,
              nm, nw, fp, heq, heq2, heq3, heq4, heq5, h1.symm⟩

theorem create_window_error_state {native : NativeWindow}
    {tp : Option ContainerId} {newId : ContainerId} {st : WmState}
    {config : UserConfig} {env : MonitorEnv} {st' : WmState} {e : WmError}
    (h : create_window native tp newId st config env = (st', .error e)) :
    st' = st := by
  unfold create_window at h
  split at h
  · exact (congrArg Prod.fst h).symm
  · split at h
    · exact (congrArg Prod.fst h).symm
    · split at h
      · exact (congrArg Prod.fst h).symm
      · split at h
        · exact (congrArg Prod.fst h).symm
        · split at h
          · exact (congrArg Prod.fst h).symm
          · have h2 := congrArg Prod.snd h
            simp at h2

/-! ## Claim theorems -/

/-- C4: when the window's current state tag already equals the requested
state's tag (comparison by tag only, ignoring any per-state config
payload), `update_window_state` returns success with the WM state
unchanged: zero tree mutations and nothing added to the redraw set. -/
theorem update_window_state_noop (w : ContainerId) (s : WindowState)
    (now : Nat) (st : WmState) (config : UserConfig) (cur : WindowState)
    (hcur : st.tree.windowState w = some cur)
    (htag : cur.tagEq s = true) :
    update_window_state w s now st config = (st, .ok ()) := by
  unfold update_window_state
  rw [hcur]
  dsimp only
  rw [if_pos htag]

/-- Witness for C4: a Floating window asked to become Floating with a
different config payload is left untouched. -/
theorem update_window_state_noop_witness :
    stFloating.tree.windowState 2 = some (.floating fcfgA) ∧
    update_window_state 2 (.floating ⟨true, true⟩) 5 stFloating uCfgA =
      (stFloating, .ok ()) :=
  ⟨rfl, update_window_state_noop 2 (.floating ⟨true, true⟩) 5 stFloating
    uCfgA (.floating fcfgA) rfl rfl⟩

/-- C6: the initial `WindowState` chosen by `manage_window` follows the
strict precedence minimized → Minimized, else fullscreen →
Fullscreen(config defaults), else not resizable → Floating(config
defaults), else Tiling; in particular a minimized non-resizable window
yields Minimized, not Floating. -/
theorem window_state_to_create_precedence (native : NativeWindow)
    (config : UserConfig) :
    (native.is_minimized = true →
      window_state_to_create native config = .minimized) ∧
    (native.is_minimized = false → native.is_fullscreen = true →
      window_state_to_create native config =
        .fullscreen config.windowStateDefaults.fullscreen) ∧
    (native.is_minimized = false → native.is_fullscreen = false →
      native.is_resizable = false →
      window_state_to_create native config =
        .floating config.windowStateDefaults.floating) ∧
    (native.is_minimized = false → native.is_fullscreen = false →
      native.is_resizable = true →
      window_state_to_create native config = .tiling) ∧
    (native.is_minimized = true → native.is_resizable = false →
      window_state_to_create native config = .minimized) := by
  obtain ⟨hd, pl, m, f, r⟩ := native
  cases m <;> cases f <;> cases r <;> simp [window_state_to_create]

/-- Witness for C6: a minimized and non-resizable native window is
classified Minimized, not Floating. -/
theorem window_state_to_create_precedence_witness :
    window_state_to_create ⟨99, rectA, true, false, false⟩ uCfgA =
      .minimized :=
  (window_state_to_create_precedence ⟨99, rectA, true, false, false⟩
    uCfgA).2.2.2.2 rfl rfl

theorem set_non_tiling_tiling_effects {w : ContainerId}
    {s : WindowState} {now : Nat} {st st' : WmState} {gap : Nat}
    {fp : Rect} {ch : List ContainerId} {b : Bool}
    (hn : st.tree.lookup w = some ⟨.tilingWindow gap fp, ch, b⟩)
    (h : set_non_tiling w s now st = (st', .ok ())) :
    ∃ ws, st.tree.parent_workspace w = some ws ∧ ws ≠ w ∧
      st'.pendingRedraw = addToRedrawList st.pendingRedraw ws ∧
      st'.has_pending_focus_sync =
        (if s.tagEq .minimized then true else st.has_pending_focus_sync) ∧
      st'.unmanaged_or_minimized_timestamp =
        (if s.tagEq .minimized then some now
         else st.unmanaged_or_minimized_timestamp) := by
  unfold set_non_tiling at h
  rw [hn] at h
  dsimp only at h
  split at h
  · simp at h
  next ws heq =>
    split at h
    · simp at h
    next parent heq2 =>
      obtain ⟨nws, hlws, hwsk⟩ := Tree.parent_workspace_lookup _ _ _ heq
      have hwsne : ws ≠ w := by
        intro e
        rw [e, hn] at hlws
        injection hlws with hh
        rw [← hh] at hwsk
        simp [ContainerKind.isWorkspace] at hwsk
      have hpm : (st.tree.move_container_within_tree w ws
          (st.tree.childCount ws - 1)).parentOf w = some ws := by
        apply Tree.parentOf_move
        rw [hlws]
        rfl
      rw [hpm] at heq2
      have hpw : parent = ws := ((Option.some.injEq _ _).mp heq2).symm
      subst hpw
      have h1 := congrArg Prod.fst h
      dsimp at h1
      rw [← h1]
      cases hmin : s.tagEq .minimized
      · refine ⟨parent, heq, hwsne, ?_, ?_, ?_⟩ <;>
          simp [hmin, WmState.add_container_to_redraw]
      · refine ⟨parent, heq, hwsne, ?_, ?_, ?_⟩ <;>
          (simp only [hmin, if_true]
           split <;>
             simp [WmState.add_container_to_redraw,
               WmState.set_focused_descendant])

/-- C1 counterexample: a Floating window (id 2 of `stFloating`)
successfully transitioned to Minimized leaves the pending-OS-focus-sync
flag unset and the last-unmanaged/minimized timestamp unrecorded, so the
side effects do not occur "regardless of the window's prior state". -/
theorem update_minimized_counterexample :
    stFloating.has_pending_focus_sync = false ∧
    stFloating.unmanaged_or_minimized_timestamp = none ∧
    stFloating.tree.windowState 2 = some (.floating fcfgA) ∧
    (update_window_state 2 .minimized 5 stFloating uCfgA).2 = .ok () ∧
    (update_window_state 2 .minimized 5
        stFloating uCfgA).1.tree.windowState 2 = some .minimized ∧
    (update_window_state 2 .minimized 5
        stFloating uCfgA).1.has_pending_focus_sync = false ∧
    (update_window_state 2 .minimized 5
        stFloating uCfgA).1.unmanaged_or_minimized_timestamp = none :=
  ⟨rfl, rfl, rfl, rfl, rfl, rfl, rfl⟩

/-- C1 (amended): a successful `update_window_state` to Minimized sets
the pending-OS-focus-sync flag and records the current instant exactly
when the window was a `TilingWindow`; when the window was already
non-tiling (or is not a tiling window), the flag and the timestamp are
left unchanged. -/
theorem update_minimized_flag_timestamp (w : ContainerId) (now : Nat)
    (st : WmState) (config : UserConfig) (st' : WmState)
    (h : update_window_state w .minimized now st config = (st', .ok ())) :
    (st.tree.isTilingWindow w = true →
      st'.has_pending_focus_sync = true ∧
      st'.unmanaged_or_minimized_timestamp = some now) ∧
    (st.tree.isTilingWindow w = false →
      st'.has_pending_focus_sync = st.has_pending_focus_sync ∧
      st'.unmanaged_or_minimized_timestamp =
        st.unmanaged_or_minimized_timestamp) := by
  constructor
  · intro hw
    cases hn : st.tree.lookup w with
    | none => unfold Tree.isTilingWindow at hw; rw [hn] at hw; cases hw
    | some node =>
      obtain ⟨nk, nch, nb⟩ := node
      cases nk with
      | tilingWindow gap fp =>
        have hws : st.tree.windowState w = some .tiling := by
          unfold Tree.windowState
          rw [hn]
        unfold update_window_state at h
        rw [hws] at h
        dsimp only at h
        rw [if_neg (by decide)] at h
        obtain ⟨ws, -, -, -, hflag, hts⟩ :=
          set_non_tiling_tiling_effects hn h
        simp only [WindowState.tagEq, if_true] at hflag hts
        exact ⟨hflag, hts⟩
      | monitor =>
        unfold Tree.isTilingWindow at hw
        rw [hn] at hw
        cases hw
      | workspace =>
        unfold Tree.isTilingWindow at hw
        rw [hn] at hw
        cases hw
      | splitContainer =>
        unfold Tree.isTilingWindow at hw
        rw [hn] at hw
        cases hw
      | nonTilingWindow s2 it fp =>
        unfold Tree.isTilingWindow at hw
        rw [hn] at hw
        cases hw
  · intro hw
    cases hn : st.tree.lookup w with
    | none =>
      have hws : st.tree.windowState w = none := by
        unfold Tree.windowState
        rw [hn]
      unfold update_window_state at h
      rw [hws] at h
      dsimp only at h
      have h1 := congrArg Prod.fst h
      dsimp at h1
      rw [← h1]
      exact ⟨rfl, rfl⟩
    | some node =>
      obtain ⟨nk, nch, nb⟩ := node
      cases nk with
      | tilingWindow gap fp =>
        unfold Tree.isTilingWindow at hw
        rw [hn] at hw
        cases hw
      | nonTilingWindow s2 it fp =>
        have hws : st.tree.windowState w = some s2 := by
          unfold Tree.windowState
          rw [hn]
        unfold update_window_state at h
        rw [hws] at h
        dsimp only at h
        by_cases hmin : s2.tagEq .minimized = true
        · rw [if_pos hmin] at h
          have h1 := congrArg Prod.fst h
          dsimp at h1
          rw [← h1]
          exact ⟨rfl, rfl⟩
        · rw [if_neg hmin] at h
          unfold set_non_tiling at h
          rw [hn] at h
          dsimp only at h
          have h1 := congrArg Prod.fst h
          dsimp at h1
          rw [← h1]
          simp [WmState.add_container_to_redraw]
      | monitor =>
        have hws : st.tree.windowState w = none := by
          unfold Tree.windowState
          rw [hn]
        unfold update_window_state at h
        rw [hws] at h
        dsimp only at h
        have h1 := congrArg Prod.fst h
        dsimp at h1
        rw [← h1]
        exact ⟨rfl, rfl⟩
      | workspace =>
        have hws : st.tree.windowState w = none := by
          unfold Tree.windowState
          rw [hn]
        unfold update_window_state at h
        rw [hws] at h
        dsimp only at h
        have h1 := congrArg Prod.fst h
        dsimp at h1
        rw [← h1]
        exact ⟨rfl, rfl⟩
      | splitContainer =>
        have hws : st.tree.windowState w = none := by
          unfold Tree.windowState
          rw [hn]
        unfold update_window_state at h
        rw [hws] at h
        dsimp only at h
        have h1 := congrArg Prod.fst h
        dsimp at h1
        rw [← h1]
        exact ⟨rfl, rfl⟩

/-- Witness for C1 (amended): minimizing the tiling window of `stTiling`
sets the flag and records instant 5. -/
theorem update_minimized_flag_timestamp_witness :
    stTiling.tree.isTilingWindow 2 = true ∧
    (update_window_state 2 .minimized 5
        stTiling uCfgA).1.has_pending_focus_sync = true ∧
    (update_window_state 2 .minimized 5
        stTiling uCfgA).1.unmanaged_or_minimized_timestamp = some 5 := by
  refine ⟨rfl, ?_, ?_⟩ <;>
    exact ((update_minimized_flag_timestamp 2 5 stTiling uCfgA _ rfl).1
      rfl).elim (fun hflag hts => by first | exact hflag | exact hts)

/-- C2: evaluation of `set_tiling` at the failing input.  In `stRetile`,
window 3 is floating with no remembered insertion target and window 2 is
the most recently focused tiling window of the workspace (parent 1,
index 0), so the claim requires reinsertion at index 1 (children
`[2, 3]`).  The code searches `window.descendant_focus_order()` — the
focus order of the floating window's own descendants, which can contain
no tiling window — so the fallback always fires and the window lands at
workspace index 0 (children `[3, 2]`). -/
theorem set_tiling_reinsertion_divergence :
    stRetile.tree.insertion_target 3 = none ∧
    stRetile.focusOrder = [2, 3] ∧
    stRetile.tree.isTilingWindow 2 = true ∧
    stRetile.tree.parentOf 2 = some 1 ∧
    stRetile.tree.index 2 + 1 = 1 ∧
    stRetile.descendant_focus_order 3 = [] ∧
    (update_window_state 3 .tiling 5 stRetile uCfgA).2 = .ok () ∧
    (update_window_state 3 .tiling 5 stRetile uCfgA).1.tree.childrenOf 1 =
      [3, 2] :=
  ⟨rfl, rfl, rfl, rfl, rfl, rfl, rfl, rfl⟩

/-- C3 counterexample: in `stSplit` the tiling window 2 sits inside
split container 4; converting it to Floating succeeds but schedules the
workspace (id 1) for redraw — its parent after the move to the end of
the workspace — not the original parent 4. -/
theorem set_non_tiling_redraw_counterexample :
    stSplit.tree.parentOf 2 = some 4 ∧
    stSplit.pendingRedraw = [] ∧
    (update_window_state 2 (.floating fcfgA) 5 stSplit uCfgA).2 =
      .ok () ∧
    (update_window_state 2 (.floating fcfgA) 5
        stSplit uCfgA).1.pendingRedraw = [1] ∧
    (4 : ContainerId) ∉ ([1] : List ContainerId) :=
  ⟨rfl, rfl, rfl, rfl, by decide⟩

/-- C3 (amended): for a `TilingWindow` successfully converted to a
non-tiling state, the container added to the redraw set is the window's
parent after the move to the end of the workspace's child sequence —
that is, the workspace itself — which is never the window and need not
be the window's original parent. -/
theorem update_non_tiling_redraw_target (w : ContainerId)
    (s : WindowState) (now : Nat) (st : WmState) (config : UserConfig)
    (st' : WmState) (hs : s.tagEq .tiling = false)
    (hw : st.tree.isTilingWindow w = true)
    (h : update_window_state w s now st config = (st', .ok ())) :
    ∃ ws, st.tree.parent_workspace w = some ws ∧ ws ≠ w ∧
      st'.pendingRedraw = addToRedrawList st.pendingRedraw ws := by
  cases hn : st.tree.lookup w with
  | none => unfold Tree.isTilingWindow at hw; rw [hn] at hw; cases hw
  | some node =>
    obtain ⟨nk, nch, nb⟩ := node
    cases nk with
    | monitor => unfold Tree.isTilingWindow at hw; rw [hn] at hw; cases hw
    | workspace =>
      unfold Tree.isTilingWindow at hw; rw [hn] at hw; cases hw
    | splitContainer =>
      unfold Tree.isTilingWindow at hw; rw [hn] at hw; cases hw
    | nonTilingWindow s2 it fp =>
      unfold Tree.isTilingWindow at hw; rw [hn] at hw; cases hw
    | tilingWindow gap fp =>
      have hws : st.tree.windowState w = some .tiling := by
        unfold Tree.windowState
        rw [hn]
      unfold update_window_state at h
      rw [hws] at h
      dsimp only at h
      rw [WindowState.tiling_tagEq, if_neg (by rw [hs]; decide)] at h
      clear hws
      cases s
      case tiling => simp [WindowState.tagEq] at hs
      all_goals
        dsimp only at h
        obtain ⟨ws, hwsp, hwsne, hredraw, -, -⟩ :=
          set_non_tiling_tiling_effects hn h
        exact ⟨ws, hwsp, hwsne, hredraw⟩

/-- Witness for C3 (amended) at `stSplit`: the redraw set gains the
workspace 1. -/
theorem update_non_tiling_redraw_target_witness :
    ∃ ws, stSplit.tree.parent_workspace 2 = some ws ∧ ws ≠ 2 ∧
      (update_window_state 2 (.floating fcfgA) 5
          stSplit uCfgA).1.pendingRedraw =
        addToRedrawList stSplit.pendingRedraw ws :=
  update_non_tiling_redraw_target 2 (.floating fcfgA) 5 stSplit uCfgA _
    rfl rfl rfl

theorem insertAt_zero (l : List ContainerId) (c : ContainerId) :
    insertAt l 0 c = c :: l := by
  cases l <;> rfl

/-- C5: on a successful `create_window`, the new window is attached at
child index 0 of an explicit target parent; on the focused-based path it
is attached at index 0 of a focused workspace, else under the focused
container's parent at the focused container's index plus one. -/
theorem create_window_attach_position (native : NativeWindow)
    (tp : Option ContainerId) (newId : ContainerId) (st : WmState)
    (config : UserConfig) (env : MonitorEnv) (st' : WmState)
    (c' : ContainerId) (hfresh : st.tree.lookup newId = none)
    (h : create_window native tp newId st config env = (st', .ok c')) :
    (∀ p pn, tp = some p → st.tree.lookup p = some pn →
      st'.tree.childrenOf p = newId :: pn.children) ∧
    (∀ f fn, tp = none → st.focused_container = some f →
      st.tree.lookup f = some fn → fn.kind.isWorkspace = true →
      st'.tree.childrenOf f = newId :: fn.children) ∧
    (∀ f fn q qn, tp = none → st.focused_container = some f →
      st.tree.lookup f = some fn → fn.kind.isWorkspace = false →
      st.tree.parentOf f = some q → st.tree.lookup q = some qn →
      st'.tree.childrenOf q =
        insertAt qn.children (st.tree.index f + 1) newId) := by
  obtain ⟨hc', P, I, ws, nm, nw, fp, htarget, hws, hnm, hnw, hfp, hst⟩ :=
    create_window_ok_inv h
  subst hst
  refine ⟨?_, ?_, ?_⟩
  · intro p pn htp hp
    subst htp
    simp only [cwTarget] at htarget
    rw [Except.ok.injEq, Prod.mk.injEq] at htarget
    obtain ⟨hP, hI⟩ := htarget
    subst hP hI
    dsimp only
    rw [Tree.childrenOf_attachedTree _ _ _ _ _ _ pn hp hfresh]
    exact insertAt_zero _ _
  · intro f fn htp hfoc hf hfw
    subst htp
    simp only [cwTarget] at htarget
    unfold insertion_target at htarget
    rw [hfoc] at htarget
    dsimp only at htarget
    rw [hf] at htarget
    dsimp only at htarget
    rw [if_pos hfw] at htarget
    rw [Except.ok.injEq, Prod.mk.injEq] at htarget
    obtain ⟨hP, hI⟩ := htarget
    subst hP hI
    dsimp only
    rw [Tree.childrenOf_attachedTree _ _ _ _ _ _ fn hf hfresh]
    exact insertAt_zero _ _
  · intro f fn q qn htp hfoc hf hfw hq hqn
    subst htp
    simp only [cwTarget] at htarget
    unfold insertion_target at htarget
    rw [hfoc] at htarget
    dsimp only at htarget
    rw [hf] at htarget
    dsimp only at htarget
    rw [if_neg (by simp [hfw])] at htarget
    rw [hq] at htarget
    dsimp only at htarget
    rw [Except.ok.injEq, Prod.mk.injEq] at htarget
    obtain ⟨hP, hI⟩ := htarget
    subst hP hI
    dsimp only
    rw [Tree.childrenOf_attachedTree _ _ _ _ _ _ qn hqn hfresh]

/-- Witness for C5: attaching to explicit parent workspace 1 of `stWork`
puts the new window at child index 0. -/
theorem create_window_attach_position_witness :
    stWork.tree.lookup 20 = none ∧
    (create_window nativeA (some 1) 20 stWork uCfgA
        envA).1.tree.childrenOf 1 = [20] := by
  refine ⟨rfl, ?_⟩
  have h := (create_window_attach_position nativeA (some 1) 20 stWork
    uCfgA envA _ _ rfl rfl).1 1 ⟨.workspace, [], false⟩ rfl rfl
  simpa using h

/-- C7 counterexample: with centering enabled (`uCfgCentered`) and the
native rectangle already centered in workspace 1's rectangle, the stored
floating placement equals the native rectangle unchanged even though the
claimed condition (same workspace AND centering disabled) is false, so
the "if and only if" fails. -/
theorem create_window_placement_counterexample :
    uCfgCentered.windowStateDefaults.floating.centered = true ∧
    envA.displayed_workspace 10 = some 1 ∧
    stWork.tree.parent_workspace 1 = some 1 ∧
    (create_window nativeA (some 1) 20 stWork uCfgCentered envA).2 =
      .ok 20 ∧
    (create_window nativeA (some 1) 20 stWork uCfgCentered
        envA).1.tree.floatingPlacement 20 = some nativeA.placement :=
  ⟨rfl, rfl, rfl, rfl, rfl⟩

/-- C7 (amended): the stored floating placement is the native rectangle
when the target workspace is the nearest monitor's displayed workspace
and centering is disabled, and otherwise the native rectangle translated
to the center of the target workspace's rectangle (which may coincide
with the native rectangle). -/
theorem create_window_placement (native : NativeWindow)
    (tp : Option ContainerId) (newId : ContainerId) (st : WmState)
    (config : UserConfig) (env : MonitorEnv) (st' : WmState)
    (c' : ContainerId) (P ws nm nw : ContainerId) (I : Nat) (r : Rect)
    (hfresh : st.tree.lookup newId = none)
    (hPs : (st.tree.lookup P).isSome = true)
    (htarget : cwTarget tp st = .ok (P, I))
    (hws : st.tree.parent_workspace P = some ws)
    (hnm : env.nearest_monitor = some nm)
    (hnw : env.displayed_workspace nm = some nw)
    (hr : env.to_rect ws = some r)
    (h : create_window native tp newId st config env = (st', .ok c')) :
    st'.tree.floatingPlacement c' =
      some (if nw == ws && !config.windowStateDefaults.floating.centered
            then native.placement
            else native.placement.translate_to_center r) := by
  obtain ⟨hc', P2, I2, ws2, nm2, nw2, fp, htarget2, hws2, hnm2, hnw2, hfp,
    hst⟩ := create_window_ok_inv h
  rw [htarget] at htarget2
  rw [Except.ok.injEq, Prod.mk.injEq] at htarget2
  obtain ⟨hP2, hI2⟩ := htarget2
  subst hP2 hI2
  rw [hws] at hws2
  injection hws2 with hws2
  subst hws2
  rw [hnm] at hnm2
  injection hnm2 with hnm2
  subst hnm2
  rw [hnw] at hnw2
  injection hnw2 with hnw2
  subst hnw2
  subst hst
  rw [hc']
  have hne : P ≠ newId := by
    intro e
    rw [e, hfresh] at hPs
    simp at hPs
  dsimp only
  rw [Tree.floatingPlacement_attachedTree _ _ _ _ _ _ hne]
  have hck : (match createdKind native config fp with
      | ContainerKind.tilingWindow _ fp2 => some fp2
      | ContainerKind.nonTilingWindow _ _ fp2 => some fp2
      | _ => none) = some fp := by
    unfold createdKind
    cases window_state_to_create native config <;> rfl
  rw [hck]
  unfold cwPlacement at hfp
  by_cases hcond : (nw == ws &&
      !config.windowStateDefaults.floating.centered) = true
  · rw [if_pos hcond] at hfp
    rw [if_pos hcond]
    injection hfp with hfp
    rw [hfp]
  · rw [if_neg hcond] at hfp
    rw [hr] at hfp
    dsimp only at hfp
    rw [if_neg hcond]
    injection hfp with hfp
    rw [hfp]

/-- Witness for C7 (amended): with centering enabled the placement is
the translated rectangle (which here coincides with the native one). -/
theorem create_window_placement_witness :
    (create_window nativeA (some 1) 20 stWork uCfgCentered
        envA).1.tree.floatingPlacement 20 =
      some (if (1 : ContainerId) == 1 &&
            !uCfgCentered.windowStateDefaults.floating.centered
            then nativeA.placement
            else nativeA.placement.translate_to_center ⟨0, 0, 100, 100⟩) :=
  create_window_placement nativeA (some 1) 20 stWork uCfgCentered envA
    _ _ 1 1 10 1 0 ⟨0, 0, 100, 100⟩ rfl rfl rfl rfl rfl rfl rfl rfl

theorem create_window_error_classify {native : NativeWindow}
    {p newId : ContainerId} {st : WmState} {config : UserConfig}
    {env : MonitorEnv} {st' : WmState} {e : WmError}
    (h : create_window native (some p) newId st config env =
      (st', .error e)) :
    e = .noTargetWorkspace ∨ e = .noNearestMonitor ∨
      e = .noNearestWorkspace ∨ e = .noRect := by
  unfold create_window at h
  split at h
  next e1 heq => simp [cwTarget] at heq
  next P I heq =>
    split at h
    · have h2 := congrArg Prod.snd h
      dsimp at h2
      injection h2 with h2
      exact Or.inl h2.symm
    next tws heq2 =>
      split at h
      · have h2 := congrArg Prod.snd h
        dsimp at h2
        injection h2 with h2
        exact Or.inr (Or.inl h2.symm)
      next nm heq3 =>
        split at h
        · have h2 := congrArg Prod.snd h
          dsimp at h2
          injection h2 with h2
          exact Or.inr (Or.inr (Or.inl h2.symm))
        next nw heq4 =>
          split at h
          next e1 heq5 =>
            have h2 := congrArg Prod.snd h
            dsimp at h2
            injection h2 with h2
            subst h2
            unfold cwPlacement at heq5
            split at heq5
            · simp at heq5
            · split at heq5
              next heq6 =>
                injection heq5 with h3
                exact Or.inr (Or.inr (Or.inr h3.symm))
              next r heq6 => simp at heq5
          next fp heq5 => simp at h

theorem manage_window_explicit_error {native : NativeWindow}
    {p newId : ContainerId} {st : WmState} {config : UserConfig}
    {env : MonitorEnv} {st' : WmState} {e : WmError}
    (h : manage_window native (some p) newId st config env =
      (st', .error e)) :
    e = .noTargetWorkspace ∨ e = .noNearestMonitor ∨
      e = .noNearestWorkspace ∨ e = .noRect ∨ e = .noParent := by
  unfold manage_window at h
  split at h
  next stc e0 heq =>
    have h2 := congrArg Prod.snd h
    dsimp at h2
    injection h2 with h2
    subst h2
    rcases create_window_error_classify heq with h3|h3|h3|h3
    · exact Or.inl h3
    · exact Or.inr (Or.inl h3)
    · exact Or.inr (Or.inr (Or.inl h3))
    · exact Or.inr (Or.inr (Or.inr (Or.inl h3)))
  next stc window heq =>
    dsimp only at h
    split at h
    next e0 heqR =>
      have h2 := congrArg Prod.snd h
      dsimp at h2
      injection h2 with h2
      subst h2
      have h3 : e0 = .noParent := by
        split at heqR
        · split at heqR
          · injection heqR with h4
            exact h4.symm
          · simp at heqR
        · simp at heqR
      exact Or.inr (Or.inr (Or.inr (Or.inr h3)))
    next target heqR => simp at h

/-- C8: a successful `manage_window` adds exactly one container to the
redraw set: the new window's parent when the managed window is a tiling
window, the window itself otherwise. -/
theorem manage_window_redraw (native : NativeWindow)
    (tp : Option ContainerId) (newId : ContainerId) (st : WmState)
    (config : UserConfig) (env : MonitorEnv) (st' : WmState)
    (h : manage_window native tp newId st config env = (st', .ok ())) :
    ((st'.tree.windowState newId).map (fun s => s.tagEq .tiling) =
        some true →
      ∃ p, st'.tree.parentOf newId = some p ∧
        st'.pendingRedraw = addToRedrawList st.pendingRedraw p) ∧
    ((st'.tree.windowState newId).map (fun s => s.tagEq .tiling) ≠
        some true →
      st'.pendingRedraw = addToRedrawList st.pendingRedraw newId) ∧
    (st.pendingRedraw = [] → ∃ tgt, st'.pendingRedraw = [tgt]) := by
  unfold manage_window at h
  split at h
  next stc e0 heq => exact Except.noConfusion (congrArg Prod.snd h)
  next stc window heq =>
    obtain ⟨hwin, P, I, ws, nm, nw, fp, -, -, -, -, -, hstc⟩ :=
      create_window_ok_inv heq
    have hwin2 : newId = window := hwin.symm
    subst hwin2
    subst hstc
    dsimp only at h
    split at h
    next e0 heqR => exact Except.noConfusion (congrArg Prod.snd h)
    next target heqR =>
      simp only [WmState.set_focused_descendant, WmState.emit_event]
        at heqR
      have h1 := congrArg Prod.fst h
      dsimp at h1
      have htree : st'.tree =
          attachedTree st.tree newId (createdKind native config fp) P I
            env.has_dpi_difference := by
        rw [← h1]
        rfl
      have hredraw : st'.pendingRedraw =
          addToRedrawList st.pendingRedraw target := by
        rw [← h1]
        rfl
      refine ⟨?_, ?_, ?_⟩
      · intro hcond
        rw [htree] at hcond
        cases hw : (attachedTree st.tree newId
            (createdKind native config fp) P I
            env.has_dpi_difference).windowState newId with
        | none => rw [hw] at hcond; simp at hcond
        | some s =>
          rw [hw] at hcond
          simp only [Option.map_some', Option.some.injEq] at hcond
          rw [hw] at heqR
          dsimp only at heqR
          rw [hcond] at heqR
          rw [if_pos rfl] at heqR
          split at heqR
          · exact Except.noConfusion heqR
          next par hpar =>
            injection heqR with heqR
            subst heqR
            exact ⟨par, by rw [htree]; exact hpar, hredraw⟩
      · intro hcond
        rw [htree] at hcond
        cases hw : (attachedTree st.tree newId
            (createdKind native config fp) P I
            env.has_dpi_difference).windowState newId with
        | none =>
          rw [hw] at heqR
          dsimp only at heqR
          rw [if_neg (by decide)] at heqR
          injection heqR with heqR
          subst heqR
          exact hredraw
        | some s =>
          rw [hw] at hcond
          cases htag : s.tagEq .tiling with
          | true => simp [htag] at hcond
          | false =>
            rw [hw] at heqR
            dsimp only at heqR
            rw [htag] at heqR
            rw [if_neg (by decide)] at heqR
            injection heqR with heqR
            subst heqR
            exact hredraw
      · intro hempty
        refine ⟨target, ?_⟩
        rw [hredraw, hempty]
        rfl

/-- Witness for C8: managing a tiling window into the focused workspace
of `stWork` schedules exactly the parent workspace for redraw. -/
theorem manage_window_redraw_witness :
    ((manage_window nativeA none 20 stWork uCfgA
        envA).1.tree.windowState 20).map (fun s => s.tagEq .tiling) =
      some true ∧
    ∃ p, (manage_window nativeA none 20 stWork uCfgA
        envA).1.tree.parentOf 20 = some p ∧
      (manage_window nativeA none 20 stWork uCfgA envA).1.pendingRedraw =
        addToRedrawList stWork.pendingRedraw p := by
  refine ⟨rfl, ?_⟩
  exact (manage_window_redraw nativeA none 20 stWork uCfgA envA _ rfl).1
    rfl

/-- C9: when `manage_window` fails before the new container is attached
(missing focused container, insertion target, target workspace, nearest
monitor, or displayed workspace), the WM state — tree, redraw set,
focus-sync flag, events — is left exactly as it was. -/
theorem manage_window_error_frame (native : NativeWindow)
    (tp : Option ContainerId) (newId : ContainerId) (st : WmState)
    (config : UserConfig) (env : MonitorEnv) (st' : WmState) (e : WmError)
    (h : manage_window native tp newId st config env = (st', .error e))
    (he : e = .noFocusedContainer ∨ e = .noInsertionTarget ∨
      e = .noTargetWorkspace ∨ e = .noNearestMonitor ∨
      e = .noNearestWorkspace) :
    st' = st := by
  unfold manage_window at h
  split at h
  next stc e0 heq =>
    have h1 := congrArg Prod.fst h
    dsimp at h1
    rw [← h1]
    exact create_window_error_state heq
  next stc window heq =>
    dsimp only at h
    split at h
    next e0 heqR =>
      have h3 : e0 = .noParent := by
        split at heqR
        · split at heqR
          · injection heqR with h4
            exact h4.symm
          · simp at heqR
        · simp at heqR
      have h2 := congrArg Prod.snd h
      dsimp at h2
      injection h2 with h2
      rw [h3] at h2
      rw [← h2] at he
      rcases he with h4|h4|h4|h4|h4 <;> exact WmError.noConfusion h4
    next target heqR => simp at h

/-- Witness for C9: with no focused container, managing without an
explicit parent fails and leaves the state untouched. -/
theorem manage_window_error_frame_witness :
    (manage_window nativeA none 20 stNoFocus uCfgA envA).1 = stNoFocus :=
  manage_window_error_frame nativeA none 20 stNoFocus uCfgA envA _ _ rfl
    (Or.inl rfl)

/-- C10: with an explicit target parent the focused container is never
consulted: the insertion point is (parent, index 0) whatever the focus
state, and the call can fail with neither the missing-focused-container
nor the missing-insertion-target error. -/
theorem manage_window_explicit_parent (native : NativeWindow)
    (p newId : ContainerId) (st : WmState) (config : UserConfig)
    (env : MonitorEnv) :
    cwTarget (some p) st = .ok (p, 0) ∧
    (manage_window native (some p) newId st config env).2 ≠
      .error .noFocusedContainer ∧
    (manage_window native (some p) newId st config env).2 ≠
      .error .noInsertionTarget := by
  refine ⟨rfl, ?_, ?_⟩
  · intro hc
    have h : manage_window native (some p) newId st config env =
        ((manage_window native (some p) newId st config env).1,
          .error .noFocusedContainer) := by
      rw [← hc]
    rcases manage_window_explicit_error h with h4|h4|h4|h4|h4 <;>
      exact WmError.noConfusion h4
  · intro hc
    have h : manage_window native (some p) newId st config env =
        ((manage_window native (some p) newId st config env).1,
          .error .noInsertionTarget) := by
      rw [← hc]
    rcases manage_window_explicit_error h with h4|h4|h4|h4|h4 <;>
      exact WmError.noConfusion h4

end GlazeWm
